import Mathlib

/-!
Verification development for the result-collapsing and scoring core of the
xapian match engine: the `Collapser` / `CollapseData` pair (collapser.h),
the `ValueStreamDocument` multi-shard document view
(matcher/valuestreamdocument.h), and the percentage / cutoff model exercised
by tests/api_percentages.cc.

Weights are modelled as rationals; machine integers as `Nat`.  Where only a
declaration is present in the sources (collapser.cc and the matcher's
percentage code are absent), the definition is modelled from the
specification and marked as such in its doc comment.
-/

set_option autoImplicit false

/-- Enumeration reporting how a document was handled by the Collapser
(collapser.h, `collapse_result`). -/
inductive collapse_result where
  | EMPTY
  | ADDED
  | REJECTED
  | REPLACED
  deriving DecidableEq, Repr

/-- One scored candidate (api/result.h as described by the data model):
global document id, weight, and the associated collapse-key byte string. -/
structure Result where
  did : Nat
  weight : ℚ
  collapse_key : String
  deriving DecidableEq, Repr

/-- Ordering Policy comparison functor (msetcmp.h, relevance order):
`mcmp a b = true` iff `a` is strictly better than `b` — primarily by weight
descending, ties broken by document id. -/
def mcmp (a b : Result) : Bool :=
  if b.weight < a.weight then true
  else if a.weight = b.weight then decide (a.did < b.did)
  else false

/-- Per-collapse-key bucket state (collapser.h, `CollapseData`): the kept
entries, the highest weight among rejected documents, and how many documents
were rejected for this key. -/
structure CollapseData where
  items : List Result
  next_best_weight : ℚ
  collapse_count : Nat
  deriving DecidableEq, Repr

/-- Constructor of `CollapseData` (collapser.h lines 60-63): a fresh bucket
holding just `item`, with the stored copy's collapse key cleared. -/
def CollapseData.new (item : Result) : CollapseData :=
  ⟨[{ item with collapse_key := "" }], 0, 0⟩

/-- The weakest element among `x :: xs` under `mcmp` (the root of the
min-heap of kept items: the heap is ordered worst-first). -/
def worstIn (x : Result) (xs : List Result) : Result :=
  xs.foldl (fun w r => if mcmp w r then r else w) x

/-- Modelled from the spec: `CollapseData::add_item` (declared in collapser.h
lines 74-77; the implementation file is not among the sources).  Handles a new
result with this bucket's collapse key: with `collapse_max <= 1` there is one
slot, replaced when the newcomer is strictly better; below capacity the item
is added; at capacity the newcomer is compared with the weakest kept item and
either rejected or swapped in for it.  `next_best_weight` and
`collapse_count` are updated from whichever item was rejected or evicted.
Returns the verdict, the updated bucket, and the evicted item when the
verdict is REPLACED. -/
def CollapseData.add_item (cd : CollapseData) (item : Result)
    (collapse_max : Nat) : collapse_result × CollapseData × Option Result :=
  match cd.items with
  | [] =>
    (.ADDED, { cd with items := [item] }, none)
  | held :: rest =>
    if collapse_max ≤ 1 then
      if mcmp item held then
        (.REPLACED,
         { cd with items := [item],
                   next_best_weight := max cd.next_best_weight held.weight,
                   collapse_count := cd.collapse_count + 1 },
         some held)
      else
        (.REJECTED,
         { cd with next_best_weight := max cd.next_best_weight item.weight,
                   collapse_count := cd.collapse_count + 1 },
         none)
    else if cd.items.length < collapse_max then
      (.ADDED, { cd with items := cd.items ++ [item] }, none)
    else
      let root := worstIn held rest
      if mcmp item root then
        (.REPLACED,
         { cd with items := cd.items.erase root ++ [item],
                   next_best_weight := max cd.next_best_weight root.weight,
                   collapse_count := cd.collapse_count + 1 },
         some root)
      else
        (.REJECTED,
         { cd with next_best_weight := max cd.next_best_weight item.weight,
                   collapse_count := cd.collapse_count + 1 },
         none)

/-- First bucket stored under `key` in the collapse table (the
`unordered_map` lookup of collapser.h line 89). -/
def lookupCD (key : String) : List (String × CollapseData) → Option CollapseData
  | [] => none
  | (k, v) :: rest => if k = key then some v else lookupCD key rest

/-- Replace the bucket stored under `key` (in-place mutation of the mapped
value through the `unordered_map` reference). -/
def updateCD (key : String) (cd : CollapseData) :
    List (String × CollapseData) → List (String × CollapseData)
  | [] => []
  | (k, v) :: rest =>
    if k = key then (k, cd) :: rest else (k, v) :: updateCD key cd rest

/-- The Collapser (collapser.h lines 87-160): collapse table, per-query
statistics, configuration fixed at construction, and the exposed `old_item`
slot holding the most recently evicted result. -/
structure Collapser where
  table : List (String × CollapseData)
  entry_count : Nat
  no_collapse_key : Nat
  dups_ignored : Nat
  docs_considered : Nat
  slot : Nat
  collapse_max : Nat
  old_item : Option Result
  deriving DecidableEq, Repr

/-- The Collapser constructor (collapser.h lines 124-127): all counters
zero, empty table, no evicted item yet. -/
def Collapser.init (slot_ collapse_max_ : Nat) : Collapser :=
  ⟨[], 0, 0, 0, 0, slot_, collapse_max_, none⟩

/-- Modelled from the spec: `Collapser::process` (declared in collapser.h
lines 142-145; the implementation file is not among the sources).  The
candidate's collapse key is supplied resolved (either the remote peer's
precomputed key or the value fetched from the document view for the
configured slot).  Collapsing disabled means unconditional ADDED; an empty
key is counted in `no_collapse_key` and never collapses; a fresh key creates
a bucket; otherwise the bucket's `add_item` decides, with `entry_count`,
`dups_ignored` and `old_item` maintained per its verdict. -/
def Collapser.process (c : Collapser) (item : Result) (key : String) :
    collapse_result × Collapser :=
  if c.collapse_max = 0 then
    (.ADDED, { c with docs_considered := c.docs_considered + 1 })
  else
    let c1 : Collapser := { c with docs_considered := c.docs_considered + 1 }
    if key = "" then
      (.ADDED, { c1 with no_collapse_key := c1.no_collapse_key + 1 })
    else
      match lookupCD key c1.table with
      | none =>
        (.ADDED,
         { c1 with table := (key, CollapseData.new item) :: c1.table,
                   entry_count := c1.entry_count + 1 })
      | some cd =>
        match cd.add_item item c1.collapse_max with
        | (.ADDED, cd2, _) =>
          (.ADDED,
           { c1 with table := updateCD key cd2 c1.table,
                     entry_count := c1.entry_count + 1 })
        | (.REJECTED, cd2, _) =>
          (.REJECTED,
           { c1 with table := updateCD key cd2 c1.table,
                     dups_ignored := c1.dups_ignored + 1 })
        | (.REPLACED, cd2, old) =>
          (.REPLACED,
           { c1 with table := updateCD key cd2 c1.table,
                     dups_ignored := c1.dups_ignored + 1,
                     old_item := old })
        | (.EMPTY, _, _) => (.EMPTY, c1)

/-- Run a whole candidate stream (each candidate a result paired with its
resolved collapse key) through the Collapser, in order. -/
def Collapser.processAll (c : Collapser) (cs : List (Result × String)) :
    Collapser :=
  cs.foldl (fun s rc => (s.process rc.1 rc.2).2) c

/-- Modelled from the spec: `Collapser::get_matches_lower_bound` (declared in
collapser.h line 157; the implementation file is not among the sources).  The
lower bound on post-collapse matches is derived from `entry_count` plus
`no_collapse_key`. -/
def Collapser.get_matches_lower_bound (c : Collapser) : Nat :=
  c.entry_count + c.no_collapse_key

/-- Total number of results currently kept across all buckets. -/
def tableSize (t : List (String × CollapseData)) : Nat :=
  (t.map (fun kv => kv.2.items.length)).sum

/-- The number of documents that appear in the final post-collapse result
set for this Collapser state: every keyless candidate plus every result
still kept in some bucket. -/
def Collapser.postCollapseMatches (c : Collapser) : Nat :=
  c.no_collapse_key + tableSize c.table

/-- The Collapser's internal consistency invariant: every bucket is
nonempty and holds at most `max 1 collapse_max` items, and `entry_count`
counts exactly the results kept across all buckets. -/
def CollapserInv (c : Collapser) : Prop :=
  (∀ kv ∈ c.table,
      kv.2.items ≠ [] ∧ kv.2.items.length ≤ max 1 c.collapse_max) ∧
  c.entry_count = tableSize c.table

/-- Boolean check that a candidate stream is presented in the order the
Ordering Policy would rank it: no candidate is strictly better than its
predecessor. -/
def inOrderB : List (Result × String) → Bool
  | [] => true
  | [_] => true
  | a :: b :: rest => !(mcmp b.1 a.1) && inOrderB (b :: rest)

/-- Candidates are presented in the order the Ordering Policy would rank
them: no later candidate is strictly better than its predecessor. -/
def InOrder (cs : List (Result × String)) : Prop :=
  inOrderB cs = true

instance : DecidablePred InOrder := fun cs =>
  inferInstanceAs (Decidable (inOrderB cs = true))

/-- State of a `ValueStreamDocument` (matcher/valuestreamdocument.h):
`did` is the active shard-local document id (inherited from
`Document::Internal`), `valuelists` the lazily cached per-slot value-list
cursors (cursor state abstracted to a number), `nshards` the fixed shard
count `db.internal.size()`, `current` the selected shard, and `doc` the
cached document object (abstracted, `none` for the NULL pointer). -/
structure VSDState where
  did : Nat
  valuelists : List (Nat × Nat)
  nshards : Nat
  current : Nat
  doc : Option Nat
  deriving DecidableEq, Repr

/-- Modelled from the spec: resolution of a global document id into its
shard index given the fixed shard count (backends/multi.h is not among the
sources; ids are striped round-robin across shards). -/
def shard_number (did n : Nat) : Nat := (did - 1) % n

/-- Modelled from the spec: resolution of a global document id into the
shard-local document id given the fixed shard count (backends/multi.h is
not among the sources). -/
def shard_docid (did n : Nat) : Nat := (did - 1) / n + 1

/-- Implementation of `ValueStreamDocument::set_shard_document`
(matcher/valuestreamdocument.h lines 57-63): when the shard-local id
changes, record the new id and drop the cached document object; otherwise do
nothing. -/
def VSDState.set_shard_document (s : VSDState) (shard_did : Nat) : VSDState :=
  if s.did ≠ shard_did then { s with did := shard_did, doc := none }
  else s

/-- Implementation of `ValueStreamDocument::set_document`
(matcher/valuestreamdocument.h lines 65-69): assert that the shard resolved
from the global id matches the currently selected shard (`AssertEq`; a
mismatch is a programming-error fault modelled as `none`), then switch to
the shard-local document id. -/
def VSDState.set_document (s : VSDState) (did_ : Nat) : Option VSDState :=
  if s.current = shard_number did_ s.nshards then
    some (s.set_shard_document (shard_docid did_ s.nshards))
  else
    none

/-- The sort orders Enquire can be put in (Enquire::set_sort_by_relevance,
set_sort_by_value, set_sort_by_value_then_relevance,
set_sort_by_relevance_then_value). -/
inductive SortBy where
  | relevance
  | value (reverse : Bool)
  | value_then_relevance (reverse : Bool)
  | relevance_then_value (reverse : Bool)
  deriving DecidableEq, Repr

/-- Whether the active sort order is value-primary. -/
def SortBy.valuePrimary : SortBy → Bool
  | .value _ => true
  | .value_then_relevance _ => true
  | _ => false

/-- Possible faults surfaced by `get_mset`. -/
inductive XapianError where
  | UnimplementedError
  deriving DecidableEq, Repr

/-- A fixed query's ranked result set: the full list of (docid, weight)
pairs in rank order, and the query-wide maximum achievable weight that
percentages are computed against. -/
structure QueryResults where
  ranked : List (Nat × ℚ)
  maxwt : ℚ
  deriving DecidableEq, Repr

/-- Modelled from the spec: conversion of a raw weight to a bounded integer
percentage relative to the query-wide maximum weight (the matcher's
percentage code is not among the sources).  A well-defined floor function of
the weight ratio, clamped to [0, 100]; a function only of the weight and the
query-wide maximum, never of the requested window. -/
def pctOf (maxwt w : ℚ) : Int :=
  if maxwt ≤ 0 then 100 else min 100 (max 0 ⌊w * 100 / maxwt⌋)

/-- Modelled from the spec: the MSet for the window [start, start+size) of
the ranked result set, each entry carrying the percentage computed from the
query-wide maximum weight. -/
def getMset (q : QueryResults) (start size : Nat) : List (Nat × ℚ × Int) :=
  ((q.ranked.drop start).take size).map (fun dw => (dw.1, dw.2, pctOf q.maxwt dw.2))

/-- Per-query Enquire configuration relevant to cutoff handling: the active
sort order and the percentage cutoff (0 means no cutoff). -/
structure Enquire where
  sortBy : SortBy
  percent_cutoff : Nat
  deriving DecidableEq, Repr

/-- Modelled from the spec: `Enquire::get_mset` restricted to cutoff
handling (the matcher's code is not among the sources).  A percentage cutoff
combined with a value-primary sort order cannot be honored and fails with
UnimplementedError; otherwise the window's entries at or above the cutoff
are returned. -/
def Enquire.get_mset (e : Enquire) (q : QueryResults) (start size : Nat) :
    Except XapianError (List (Nat × ℚ × Int)) :=
  if e.percent_cutoff ≠ 0 ∧ e.sortBy.valuePrimary then
    .error .UnimplementedError
  else
    .ok ((getMset q start size).filter
          (fun r => (e.percent_cutoff : Int) ≤ r.2.2))

theorem worstIn_mem (x : Result) (xs : List Result) :
    worstIn x xs = x ∨ worstIn x xs ∈ xs := by
  induction xs generalizing x with
  | nil => exact Or.inl rfl
  | cons y ys ih =>
    have hstep : worstIn x (y :: ys) = worstIn (if mcmp x y then y else x) ys :=
      rfl
    rw [hstep]
    rcases ih (if mcmp x y then y else x) with h | h
    · rw [h]
      split
      · exact Or.inr (List.mem_cons_self _ _)
      · exact Or.inl rfl
    · exact Or.inr (List.mem_cons_of_mem _ h)

/-- C5: for every CollapseData bucket and every add_item call on it, the
bucket's next_best_weight after the call is greater than or equal to its
value before the call; hence next_best_weight is non-decreasing across
successive add_item calls over the bucket's whole lifetime. -/
theorem next_best_weight_nondecreasing (cd : CollapseData) (item : Result)
    (k : Nat) :
    cd.next_best_weight ≤ (cd.add_item item k).2.1.next_best_weight := by
  cases hitems : cd.items with
  | nil => simp [CollapseData.add_item, hitems]
  | cons held rest =>
    simp only [CollapseData.add_item, hitems]
    split
    · split <;> simp [le_max_left]
    · split
      · simp
      · split <;> simp [le_max_left]

/-- C7 (counterexample): changing the shard-local document id does NOT drop
the cached per-slot value cursors: starting from a state with id 1 and one
cached cursor, `set_shard_document 2` changes the id yet leaves the cursor
cache nonempty, contradicting the claim that all cached cursors are dropped
on an id change. -/
theorem vsd_cursor_retention_cex :
    (VSDState.set_shard_document ⟨1, [(0, 7)], 1, 0, some 3⟩ 2).did = 2 ∧
    (VSDState.set_shard_document ⟨1, [(0, 7)], 1, 0, some 3⟩ 2).valuelists
        = [(0, 7)] ∧
    ¬ ((VSDState.set_shard_document ⟨1, [(0, 7)], 1, 0, some 3⟩ 2).valuelists
        = []) := by
  decide

/-- C7 (amended): any change of the active shard-local document id (via
set_shard_document with an id differing from the previous one) establishes
the new id and invalidates and drops the cached document object for the old
id; the cached per-slot value cursors are retained, not dropped. -/
theorem vsd_id_change_drops_doc (s : VSDState) (shard_did : Nat)
    (h : s.did ≠ shard_did) :
    (s.set_shard_document shard_did).did = shard_did ∧
    (s.set_shard_document shard_did).doc = none ∧
    (s.set_shard_document shard_did).valuelists = s.valuelists := by
  unfold VSDState.set_shard_document
  simp [h]

theorem vsd_id_change_drops_doc_witness :
    (1 : Nat) ≠ 2 ∧
    (((⟨1, [(0, 7)], 1, 0, some 3⟩ : VSDState).set_shard_document 2).did = 2 ∧
     ((⟨1, [(0, 7)], 1, 0, some 3⟩ : VSDState).set_shard_document 2).doc
        = none ∧
     ((⟨1, [(0, 7)], 1, 0, some 3⟩ : VSDState).set_shard_document 2).valuelists
        = (⟨1, [(0, 7)], 1, 0, some 3⟩ : VSDState).valuelists) :=
  ⟨by decide, vsd_id_change_drops_doc ⟨1, [(0, 7)], 1, 0, some 3⟩ 2 (by decide)⟩

/-- C8: set_document resolves the shard index of the global id from the
fixed shard count and asserts it equals the currently selected shard: on a
mismatch the operation aborts (programming-error fault, modelled as
`none`), and under the precondition that the caller selected the owning
shard first the assertion's failure branch is unreachable and the call
simply switches to the resolved shard-local document id. -/
theorem set_document_shard_assertion (s : VSDState) (g : Nat) :
    (s.current = shard_number g s.nshards →
      s.set_document g = some (s.set_shard_document (shard_docid g s.nshards))) ∧
    (s.current ≠ shard_number g s.nshards → s.set_document g = none) := by
  unfold VSDState.set_document
  constructor
  · intro h
    simp [h]
  · intro h
    simp [h]

theorem set_document_shard_assertion_witness :
    ((⟨1, [], 2, 0, none⟩ : VSDState).set_document 3 =
        some ((⟨1, [], 2, 0, none⟩ : VSDState).set_shard_document 2)) ∧
    ((⟨1, [], 2, 0, none⟩ : VSDState).set_document 2 = none) :=
  ⟨by
    have h := (set_document_shard_assertion ⟨1, [], 2, 0, none⟩ 3).1 (by decide)
    simpa using h,
   (set_document_shard_assertion ⟨1, [], 2, 0, none⟩ 2).2 (by decide)⟩

/-- C10: setting the shard-local document id to the currently active one
(directly via set_shard_document, or via set_document when the global id
resolves to the active shard-local id) changes no state at all: the whole
state, in particular the cached document object and the cached per-slot
value cursors, is left untouched. -/
theorem set_same_document_frame (s : VSDState) (g : Nat) :
    s.set_shard_document s.did = s ∧
    (s.current = shard_number g s.nshards → shard_docid g s.nshards = s.did →
      s.set_document g = some s) := by
  constructor
  · unfold VSDState.set_shard_document
    simp
  · intro h1 h2
    unfold VSDState.set_document
    rw [if_pos h1, h2]
    unfold VSDState.set_shard_document
    simp

theorem set_same_document_frame_witness :
    ((⟨2, [(1, 5)], 2, 1, some 4⟩ : VSDState).set_shard_document 2 =
        (⟨2, [(1, 5)], 2, 1, some 4⟩ : VSDState)) ∧
    ((⟨2, [(1, 5)], 2, 1, some 4⟩ : VSDState).set_document 4 =
        some (⟨2, [(1, 5)], 2, 1, some 4⟩ : VSDState)) :=
  ⟨(set_same_document_frame ⟨2, [(1, 5)], 2, 1, some 4⟩ 4).1,
   (set_same_document_frame ⟨2, [(1, 5)], 2, 1, some 4⟩ 4).2 (by decide)
     (by decide)⟩

/-- C4: with a nonzero percentage cutoff set, get_mset under any of the four
value-primary sort orders (sort by value ascending or descending, with or
without relevance as a secondary key) fails with UnimplementedError: it
never returns a truncated or unfiltered result and never silently ignores
the cutoff or the sort order. -/
theorem pct_cutoff_value_sort_fails (q : QueryResults)
    (start size cutoff : Nat) (rev : Bool) (h : cutoff ≠ 0) :
    (Enquire.mk (.value rev) cutoff).get_mset q start size =
        .error .UnimplementedError ∧
    (Enquire.mk (.value_then_relevance rev) cutoff).get_mset q start size =
        .error .UnimplementedError := by
  unfold Enquire.get_mset
  simp [SortBy.valuePrimary, h]

theorem pct_cutoff_value_sort_fails_witness :
    (42 : Nat) ≠ 0 ∧
    ((Enquire.mk (.value false) 42).get_mset ⟨[(1, 10)], 10⟩ 0 10 =
        .error .UnimplementedError) ∧
    ((Enquire.mk (.value_then_relevance true) 42).get_mset ⟨[(1, 10)], 10⟩ 0 10
        = .error .UnimplementedError) :=
  ⟨by decide,
   (pct_cutoff_value_sort_fails ⟨[(1, 10)], 10⟩ 0 10 42 false (by decide)).1,
   (pct_cutoff_value_sort_fails ⟨[(1, 10)], 10⟩ 0 10 42 true (by decide)).2⟩

theorem tableSize_cons (kv : String × CollapseData)
    (t : List (String × CollapseData)) :
    tableSize (kv :: t) = kv.2.items.length + tableSize t := by
  simp [tableSize]

theorem lookupCD_mem (key : String) (t : List (String × CollapseData))
    (cd : CollapseData) (h : lookupCD key t = some cd) : (key, cd) ∈ t := by
  induction t with
  | nil => simp [lookupCD] at h
  | cons hd rest ih =>
    obtain ⟨k, v⟩ := hd
    by_cases hk : k = key
    · subst hk
      simp [lookupCD] at h
      subst h
      exact List.mem_cons_self _ _
    · simp [lookupCD, hk] at h
      exact List.mem_cons_of_mem _ (ih h)

theorem updateCD_mem (key : String) (cd2 : CollapseData)
    (t : List (String × CollapseData)) (kv : String × CollapseData)
    (h : kv ∈ updateCD key cd2 t) : kv.2 = cd2 ∨ kv ∈ t := by
  induction t with
  | nil => simp [updateCD] at h
  | cons hd rest ih =>
    obtain ⟨k, v⟩ := hd
    by_cases hk : k = key
    · simp only [updateCD, if_pos hk] at h
      rcases List.mem_cons.mp h with rfl | hmem
      · exact Or.inl rfl
      · exact Or.inr (List.mem_cons_of_mem _ hmem)
    · simp only [updateCD, if_neg hk] at h
      rcases List.mem_cons.mp h with rfl | hmem
      · exact Or.inr (List.mem_cons_self _ _)
      · rcases ih hmem with h2 | h2
        · exact Or.inl h2
        · exact Or.inr (List.mem_cons_of_mem _ h2)

theorem tableSize_updateCD (key : String) (cd2 : CollapseData)
    (t : List (String × CollapseData)) (cd : CollapseData)
    (h : lookupCD key t = some cd) :
    tableSize (updateCD key cd2 t) + cd.items.length =
      tableSize t + cd2.items.length := by
  induction t with
  | nil => simp [lookupCD] at h
  | cons hd rest ih =>
    obtain ⟨k, v⟩ := hd
    by_cases hk : k = key
    · subst hk
      simp [lookupCD] at h
      subst h
      simp [updateCD, tableSize_cons]
      omega
    · simp [lookupCD, hk] at h
      simp only [updateCD, if_neg hk]
      rw [tableSize_cons, tableSize_cons]
      have := ih h
      omega

theorem add_item_added_shape (cd : CollapseData) (item : Result) (k : Nat)
    (h : (cd.add_item item k).1 = .ADDED) :
    (cd.add_item item k).2.1.items = cd.items ++ [item] ∧
    (cd.items = [] ∨ cd.items.length < k) := by
  cases hitems : cd.items with
  | nil => simp [CollapseData.add_item, hitems]
  | cons held rest =>
    simp only [CollapseData.add_item, hitems] at h ⊢
    split_ifs at h ⊢ with h1 h2 h3
    simp_all

theorem add_item_rejected_shape (cd : CollapseData) (item : Result) (k : Nat)
    (h : (cd.add_item item k).1 = .REJECTED) :
    (cd.add_item item k).2.1.items = cd.items := by
  cases hitems : cd.items with
  | nil => simp [CollapseData.add_item, hitems] at h
  | cons held rest =>
    simp only [CollapseData.add_item, hitems] at h ⊢
    split_ifs at h ⊢ with h1 h2 h3 <;> simp_all

theorem add_item_replaced_shape (cd : CollapseData) (item : Result) (k : Nat)
    (h : (cd.add_item item k).1 = .REPLACED) :
    ∃ ev, (cd.add_item item k).2.2 = some ev ∧ ev ∈ cd.items := by
  cases hitems : cd.items with
  | nil => simp [CollapseData.add_item, hitems] at h
  | cons held rest =>
    simp only [CollapseData.add_item, hitems] at h ⊢
    split_ifs at h ⊢ with h1 h2 h3 h4
    · exact ⟨held, rfl, List.mem_cons_self _ _⟩
    · refine ⟨worstIn held rest, rfl, ?_⟩
      rcases worstIn_mem held rest with hw | hw
      · rw [hw]
        exact List.mem_cons_self _ _
      · exact List.mem_cons_of_mem _ hw

theorem add_item_replaced_length (cd : CollapseData) (item : Result) (k : Nat)
    (hlen : cd.items.length ≤ max 1 k)
    (h : (cd.add_item item k).1 = .REPLACED) :
    (cd.add_item item k).2.1.items.length = cd.items.length := by
  cases hitems : cd.items with
  | nil => simp [CollapseData.add_item, hitems] at h
  | cons held rest =>
    rw [hitems] at hlen
    simp only [CollapseData.add_item, hitems] at h ⊢
    split_ifs at h ⊢ with h1 h2 h3 h4
    · have hr : rest.length = 0 := by
        rw [max_eq_left h1] at hlen
        simp only [List.length_cons] at hlen
        omega
      show ([item] : List Result).length = (held :: rest).length
      simp [hr]
    · have hmem : worstIn held rest ∈ held :: rest := by
        rcases worstIn_mem held rest with hw | hw
        · rw [hw]
          exact List.mem_cons_self _ _
        · exact List.mem_cons_of_mem _ hw
      simp [List.length_erase_of_mem hmem]

theorem process_inv (c : Collapser) (item : Result) (key : String)
    (h : CollapserInv c) : CollapserInv (c.process item key).2 := by
  obtain ⟨hb, he⟩ := h
  unfold Collapser.process
  dsimp only
  split
  · exact ⟨hb, he⟩
  next hk0 =>
    split
    · exact ⟨hb, he⟩
    next hkey =>
      split
      next hlook =>
        refine ⟨?_, ?_⟩
        · intro kv hkv
          rcases List.mem_cons.mp hkv with rfl | hkv2
          · refine ⟨by simp [CollapseData.new], ?_⟩
            show (CollapseData.new item).items.length ≤ max 1 c.collapse_max
            simp [CollapseData.new]
          · exact hb kv hkv2
        · show c.entry_count + 1 = tableSize ((key, CollapseData.new item) :: c.table)
          rw [tableSize_cons]
          simp only [CollapseData.new, List.length_singleton]
          omega
      next cd hlook =>
        obtain ⟨hcdne, hcdlen⟩ := hb (key, cd) (lookupCD_mem key c.table cd hlook)
        split
        next cd2 x heq =>
          obtain ⟨hitems2, hcap⟩ :=
            add_item_added_shape cd item c.collapse_max (by rw [heq])
          rw [heq] at hitems2
          simp only at hitems2
          refine ⟨?_, ?_⟩
          · intro kv hkv
            rcases updateCD_mem key cd2 c.table kv hkv with h2 | h2
            · rw [h2, hitems2]
              refine ⟨by simp, ?_⟩
              rcases hcap with hc | hc
              · simp [hc]
              · simp only [List.length_append, List.length_singleton]
                exact le_trans (by omega) (le_max_right 1 c.collapse_max)
            · exact hb kv h2
          · show c.entry_count + 1 = tableSize (updateCD key cd2 c.table)
            have ht := tableSize_updateCD key cd2 c.table cd hlook
            rw [hitems2] at ht
            simp only [List.length_append, List.length_singleton] at ht
            omega
        next cd2 x heq =>
          have hitems2 := add_item_rejected_shape cd item c.collapse_max (by rw [heq])
          rw [heq] at hitems2
          simp only at hitems2
          refine ⟨?_, ?_⟩
          · intro kv hkv
            rcases updateCD_mem key cd2 c.table kv hkv with h2 | h2
            · rw [h2, hitems2]
              exact ⟨hcdne, hcdlen⟩
            · exact hb kv h2
          · show c.entry_count = tableSize (updateCD key cd2 c.table)
            have ht := tableSize_updateCD key cd2 c.table cd hlook
            rw [hitems2] at ht
            omega
        next cd2 old heq =>
          have hlen2 := add_item_replaced_length cd item c.collapse_max hcdlen
            (by rw [heq])
          rw [heq] at hlen2
          simp only at hlen2
          refine ⟨?_, ?_⟩
          · intro kv hkv
            rcases updateCD_mem key cd2 c.table kv hkv with h2 | h2
            · rw [h2]
              refine ⟨?_, by rw [hlen2]; exact hcdlen⟩
              rw [← List.length_pos, hlen2, List.length_pos]
              exact hcdne
            · exact hb kv h2
          · show c.entry_count = tableSize (updateCD key cd2 c.table)
            have ht := tableSize_updateCD key cd2 c.table cd hlook
            omega
        next x y heq =>
          exact ⟨hb, he⟩

theorem process_collapse_max (c : Collapser) (item : Result) (key : String) :
    ((c.process item key).2).collapse_max = c.collapse_max := by
  unfold Collapser.process
  dsimp only
  split
  · rfl
  split
  · rfl
  split
  · rfl
  split <;> rfl

theorem process_lb_step (c : Collapser) (item : Result) (key : String) :
    c.get_matches_lower_bound ≤
      ((c.process item key).2).get_matches_lower_bound := by
  unfold Collapser.process Collapser.get_matches_lower_bound
  dsimp only
  split
  · exact le_refl _
  split
  · dsimp only
    omega
  split
  · dsimp only
    omega
  split <;> dsimp only <;> omega

theorem processAll_append (c : Collapser) (a b : List (Result × String)) :
    c.processAll (a ++ b) = (c.processAll a).processAll b := by
  unfold Collapser.processAll
  exact List.foldl_append _ _ a b

theorem processAll_inv (c : Collapser) (cs : List (Result × String))
    (h : CollapserInv c) : CollapserInv (c.processAll cs) := by
  induction cs generalizing c with
  | nil => exact h
  | cons rc rest ih => exact ih _ (process_inv c rc.1 rc.2 h)

theorem processAll_collapse_max (c : Collapser) (cs : List (Result × String)) :
    (c.processAll cs).collapse_max = c.collapse_max := by
  induction cs generalizing c with
  | nil => rfl
  | cons rc rest ih =>
    exact (ih _).trans (process_collapse_max c rc.1 rc.2)

theorem processAll_lb (c : Collapser) (cs : List (Result × String)) :
    c.get_matches_lower_bound ≤
      (c.processAll cs).get_matches_lower_bound := by
  induction cs generalizing c with
  | nil => exact le_refl _
  | cons rc rest ih =>
    exact le_trans (process_lb_step c rc.1 rc.2) (ih _)

theorem init_inv (slot_ k : Nat) : CollapserInv (Collapser.init slot_ k) := by
  refine ⟨?_, rfl⟩
  intro kv hkv
  simp [Collapser.init] at hkv

/-- C1: for every sequence of candidates processed through a Collapser
constructed with collapse_max = k, every CollapseData bucket satisfies
items.size() <= max(1, k) at every point between operations (the sequence is
arbitrary, so this covers the state before the first add_item and after each
add_item and process call). -/
theorem collapser_bucket_size_invariant (slot_ k : Nat)
    (cs : List (Result × String)) :
    ∀ kv ∈ ((Collapser.init slot_ k).processAll cs).table,
      kv.2.items.length ≤ max 1 k := by
  intro kv hkv
  have hinv := processAll_inv _ cs (init_inv slot_ k)
  have hcm := processAll_collapse_max (Collapser.init slot_ k) cs
  have hkv2 := hinv.1 kv hkv
  rw [hcm] at hkv2
  exact hkv2.2

theorem collapser_bucket_size_invariant_witness :
    (("K", CollapseData.new ⟨1, 10, ""⟩) ∈
        ((Collapser.init 0 1).processAll [(⟨1, 10, ""⟩, "K")]).table) ∧
    ("K", CollapseData.new ⟨1, 10, ""⟩).2.items.length ≤ max 1 1 :=
  ⟨by decide,
   collapser_bucket_size_invariant 0 1 [(⟨1, 10, ""⟩, "K")]
     ("K", CollapseData.new ⟨1, 10, ""⟩) (by decide)⟩

/-- C2: for a Collapser fed candidates in the order the Ordering Policy
would rank them, get_matches_lower_bound is monotonically non-decreasing as
successive candidates are processed within a single query, and at any
intermediate point it never exceeds the true number of distinct
post-collapse matches of the whole stream (the number of documents in the
final post-collapse result set). -/
theorem matches_lower_bound_sound_monotone (slot_ k : Nat)
    (p r1 r2 : List (Result × String)) (_hord : InOrder (p ++ r1 ++ r2)) :
    ((Collapser.init slot_ k).processAll p).get_matches_lower_bound ≤
      ((Collapser.init slot_ k).processAll (p ++ r1)).get_matches_lower_bound ∧
    ((Collapser.init slot_ k).processAll (p ++ r1)).get_matches_lower_bound ≤
      ((Collapser.init slot_ k).processAll
          (p ++ r1 ++ r2)).postCollapseMatches := by
  have h1 : ((Collapser.init slot_ k).processAll p).get_matches_lower_bound ≤
      ((Collapser.init slot_ k).processAll
          (p ++ r1)).get_matches_lower_bound := by
    rw [processAll_append]
    exact processAll_lb _ _
  have h2 : ((Collapser.init slot_ k).processAll
      (p ++ r1)).get_matches_lower_bound ≤
      ((Collapser.init slot_ k).processAll
          (p ++ r1 ++ r2)).get_matches_lower_bound := by
    conv_rhs => rw [processAll_append]
    exact processAll_lb _ _
  have hinv := processAll_inv _ (p ++ r1 ++ r2) (init_inv slot_ k)
  refine ⟨h1, le_trans h2 ?_⟩
  have he := hinv.2
  unfold Collapser.get_matches_lower_bound Collapser.postCollapseMatches
  omega

theorem matches_lower_bound_sound_monotone_witness :
    InOrder ([(⟨1, 30, ""⟩, "K")] ++ [(⟨2, 20, ""⟩, "K")] ++
      [(⟨3, 10, ""⟩, "L")]) ∧
    (((Collapser.init 0 1).processAll
        [(⟨1, 30, ""⟩, "K")]).get_matches_lower_bound ≤
      ((Collapser.init 0 1).processAll
        ([(⟨1, 30, ""⟩, "K")] ++ [(⟨2, 20, ""⟩, "K")])).get_matches_lower_bound ∧
     ((Collapser.init 0 1).processAll
        ([(⟨1, 30, ""⟩, "K")] ++ [(⟨2, 20, ""⟩, "K")])).get_matches_lower_bound ≤
      ((Collapser.init 0 1).processAll
        ([(⟨1, 30, ""⟩, "K")] ++ [(⟨2, 20, ""⟩, "K")] ++
          [(⟨3, 10, ""⟩, "L")])).postCollapseMatches) :=
  ⟨by decide,
   matches_lower_bound_sound_monotone 0 1 [(⟨1, 30, ""⟩, "K")]
     [(⟨2, 20, ""⟩, "K")] [(⟨3, 10, ""⟩, "L")] (by decide)⟩

/-- C9: whenever Collapser::process returns REPLACED, entry_count is
unchanged, dups_ignored is incremented by one, and the evicted result (a
member of the bucket that was previously kept) is exposed via the
Collapser's old_item slot; moreover, processing three candidates sharing one
collapse key with collapse_max = 1 and weights [10, 30, 20] in that arrival
order ends with the weight-30 item kept, dups_ignored = 2 and
entry_count = 1. -/
theorem replaced_bookkeeping :
    (∀ (c : Collapser) (item : Result) (key : String)
        (v : collapse_result) (c2 : Collapser),
      c.process item key = (v, c2) → v = .REPLACED →
        c2.entry_count = c.entry_count ∧
        c2.dups_ignored = c.dups_ignored + 1 ∧
        ∃ cd ev, lookupCD key c.table = some cd ∧ ev ∈ cd.items ∧
          c2.old_item = some ev) ∧
    ((lookupCD "K" (((Collapser.init 0 1).processAll
          [(⟨1, 10, ""⟩, "K"), (⟨2, 30, ""⟩, "K"),
           (⟨3, 20, ""⟩, "K")]).table)).map
        (fun cd => cd.items.map Result.weight) = some [30] ∧
     ((Collapser.init 0 1).processAll
        [(⟨1, 10, ""⟩, "K"), (⟨2, 30, ""⟩, "K"),
         (⟨3, 20, ""⟩, "K")]).dups_ignored = 2 ∧
     ((Collapser.init 0 1).processAll
        [(⟨1, 10, ""⟩, "K"), (⟨2, 30, ""⟩, "K"),
         (⟨3, 20, ""⟩, "K")]).entry_count = 1) := by
  constructor
  · intro c item key v c2 hP hv
    subst hv
    unfold Collapser.process at hP
    dsimp only at hP
    split at hP
    · simp at hP
    split at hP
    · simp at hP
    split at hP
    next hlook => simp at hP
    next cd hlook =>
      split at hP
      next cd2 x heq => simp at hP
      next cd2 x heq => simp at hP
      next cd2 old heq =>
        rw [Prod.mk.injEq] at hP
        obtain ⟨-, hP⟩ := hP
        subst hP
        obtain ⟨ev, hev, hmem⟩ :=
          add_item_replaced_shape cd item c.collapse_max (by rw [heq])
        rw [heq] at hev
        simp only at hev
        exact ⟨rfl, rfl, cd, ev, hlook, hmem, hev⟩
      next x y heq => simp at hP
  · decide

theorem replaced_bookkeeping_witness :
    ((⟨[("K", ⟨[⟨1, 10, ""⟩], 0, 0⟩)], 1, 0, 0, 1, 0, 1, none⟩ :
        Collapser).process ⟨2, 30, ""⟩ "K" =
      (.REPLACED,
       (⟨[("K", ⟨[⟨2, 30, ""⟩], 10, 1⟩)], 1, 0, 1, 2, 0, 1,
         some ⟨1, 10, ""⟩⟩ : Collapser))) ∧
    ((⟨[("K", ⟨[⟨2, 30, ""⟩], 10, 1⟩)], 1, 0, 1, 2, 0, 1,
        some ⟨1, 10, ""⟩⟩ : Collapser).entry_count =
      (⟨[("K", ⟨[⟨1, 10, ""⟩], 0, 0⟩)], 1, 0, 0, 1, 0, 1, none⟩ :
        Collapser).entry_count ∧
     (⟨[("K", ⟨[⟨2, 30, ""⟩], 10, 1⟩)], 1, 0, 1, 2, 0, 1,
        some ⟨1, 10, ""⟩⟩ : Collapser).dups_ignored =
      (⟨[("K", ⟨[⟨1, 10, ""⟩], 0, 0⟩)], 1, 0, 0, 1, 0, 1, none⟩ :
        Collapser).dups_ignored + 1 ∧
     ∃ cd ev,
       lookupCD "K" (⟨[("K", ⟨[⟨1, 10, ""⟩], 0, 0⟩)], 1, 0, 0, 1, 0, 1,
          none⟩ : Collapser).table = some cd ∧ ev ∈ cd.items ∧
       (⟨[("K", ⟨[⟨2, 30, ""⟩], 10, 1⟩)], 1, 0, 1, 2, 0, 1,
          some ⟨1, 10, ""⟩⟩ : Collapser).old_item = some ev) :=
  ⟨by decide,
   replaced_bookkeeping.1
     ⟨[("K", ⟨[⟨1, 10, ""⟩], 0, 0⟩)], 1, 0, 0, 1, 0, 1, none⟩
     ⟨2, 30, ""⟩ "K" .REPLACED
     ⟨[("K", ⟨[⟨2, 30, ""⟩], 10, 1⟩)], 1, 0, 1, 2, 0, 1, some ⟨1, 10, ""⟩⟩
     (by decide) rfl⟩

theorem getMset_window_entry (q : QueryResults) (s n d : Nat)
    (h1 : s ≤ d) (h2 : d < s + n) :
    (getMset q s n)[d - s]? =
      (q.ranked[d]?).map (fun dw => (dw.1, dw.2, pctOf q.maxwt dw.2)) := by
  unfold getMset
  rw [List.getElem?_map, List.getElem?_take, if_pos (by omega),
    List.getElem?_drop, Nat.add_sub_cancel' h1]

/-- C3: for a fixed query over fixed underlying weights, the entry (and in
particular the reported percentage) for the document at ranked index d is
identical in any two requested sub-windows [s1, s1+n1) and [s2, s2+n2) that
both contain index d, and equals the entry obtained from the full result
set. -/
theorem percentage_stable_under_paging (q : QueryResults)
    (s1 n1 s2 n2 d : Nat) (h1 : s1 ≤ d) (h2 : d < s1 + n1)
    (h3 : s2 ≤ d) (h4 : d < s2 + n2) (h5 : d < q.ranked.length) :
    (getMset q s1 n1)[d - s1]? = (getMset q s2 n2)[d - s2]? ∧
    (getMset q s1 n1)[d - s1]? = (getMset q 0 q.ranked.length)[d]? := by
  have e1 := getMset_window_entry q s1 n1 d h1 h2
  have e2 := getMset_window_entry q s2 n2 d h3 h4
  have e3 := getMset_window_entry q 0 q.ranked.length d (Nat.zero_le d)
    (by omega)
  rw [Nat.sub_zero] at e3
  exact ⟨e1.trans e2.symm, e1.trans e3.symm⟩

theorem percentage_stable_under_paging_witness :
    ((0 : Nat) ≤ 1 ∧ (1 : Nat) < 0 + 2 ∧ (1 : Nat) ≤ 1 ∧ (1 : Nat) < 1 + 2 ∧
      (1 : Nat) <
        (QueryResults.mk [(1, 100), (2, 50), (3, 25)] 100).ranked.length) ∧
    ((getMset (QueryResults.mk [(1, 100), (2, 50), (3, 25)] 100) 0 2)[1 - 0]? =
      (getMset (QueryResults.mk [(1, 100), (2, 50), (3, 25)] 100) 1 2)[1 - 1]? ∧
     (getMset (QueryResults.mk [(1, 100), (2, 50), (3, 25)] 100) 0 2)[1 - 0]? =
      (getMset (QueryResults.mk [(1, 100), (2, 50), (3, 25)] 100) 0
        (QueryResults.mk [(1, 100), (2, 50), (3, 25)] 100).ranked.length)[1]?) :=
  ⟨⟨by decide, by decide, by decide, by decide, by decide⟩,
   percentage_stable_under_paging (QueryResults.mk [(1, 100), (2, 50), (3, 25)] 100)
     0 2 1 2 1 (by decide) (by decide) (by decide) (by decide) (by decide)⟩
